import Mathlib

/-!
Verification development for the dcrlnd payment-routing and attempt-tracking
core: route/hop codec, witness cache, payment sessions, and the invoice RPC
conversion. Byte streams are modelled as `List Nat`, machine integers as `Nat`
with explicit bounds, fallible operations as `Option`/`Except`.
-/

namespace Dcrlnd

/-! ## Byte-stream primitives

The codec works on byte streams. `encULE k n` encodes `n` as `k` bytes in
little-endian order; `decULE k` reads `k` bytes back. `readBytes k` splits off
a fixed-width field. -/

/-- Encode a natural number as `k` little-endian bytes (values taken mod 256). -/
def encULE : Nat → Nat → List Nat
  | 0, _ => []
  | k + 1, n => n % 256 :: encULE k (n / 256)

/-- Decode `k` little-endian bytes into a natural number, returning the
remaining stream, or `none` when the stream is too short. -/
def decULE : Nat → List Nat → Option (Nat × List Nat)
  | 0, s => some (0, s)
  | _ + 1, [] => none
  | k + 1, b :: rest =>
    match decULE k rest with
    | none => none
    | some (m, rest') => some (b + 256 * m, rest')

/-- Split off a fixed-width field of `k` bytes, or fail when the stream is too
short. -/
def readBytes : Nat → List Nat → Option (List Nat × List Nat)
  | 0, s => some ([], s)
  | _ + 1, [] => none
  | k + 1, b :: rest =>
    match readBytes k rest with
    | none => none
    | some (bs, rest') => some (b :: bs, rest')

/-- Encode a variable-length byte field: 8-byte little-endian length, then the
raw bytes. -/
def encVarBytes (bs : List Nat) : List Nat :=
  encULE 8 bs.length ++ bs

/-- Decode a variable-length byte field written by `encVarBytes`. -/
def decVarBytes (s : List Nat) : Option (List Nat × List Nat) :=
  match decULE 8 s with
  | none => none
  | some (len, rest) => readBytes len rest

theorem encULE_length (k n : Nat) : (encULE k n).length = k := by
  induction k generalizing n with
  | zero => rfl
  | succ k ih => simp [encULE, ih]

theorem decULE_encULE (k : Nat) : ∀ (n : Nat), n < 256 ^ k →
    ∀ (rest : List Nat), decULE k (encULE k n ++ rest) = some (n, rest) := by
  induction k with
  | zero =>
    intro n hn rest
    interval_cases n
    rfl
  | succ k ih =>
    intro n hn rest
    have hdiv : n / 256 < 256 ^ k := by
      rw [Nat.div_lt_iff_lt_mul (by norm_num)]
      calc n < 256 ^ (k + 1) := hn
        _ = 256 ^ k * 256 := by ring
    simp only [encULE, List.cons_append, decULE, List.append_eq,
      ih (n / 256) hdiv rest, Nat.mod_add_div]

theorem readBytes_append (bs : List Nat) : ∀ (rest : List Nat),
    readBytes bs.length (bs ++ rest) = some (bs, rest) := by
  induction bs with
  | nil => intro rest; rfl
  | cons b tl ih =>
    intro rest
    simp only [List.length_cons, List.cons_append, readBytes, List.append_eq,
      ih rest]

theorem decVarBytes_encVarBytes (bs : List Nat) (hbs : bs.length < 256 ^ 8)
    (rest : List Nat) : decVarBytes (encVarBytes bs ++ rest) = some (bs, rest) := by
  simp only [encVarBytes, decVarBytes, List.append_assoc,
    decULE_encULE 8 bs.length hbs, readBytes_append]

/-! ## Codec data model

The route/hop/payment record types, as exercised by
`TestSentPaymentSerialization` and `TestRouteSerialization`. -/

/-- One TLV record carried by a hop to the next node: a numeric type
identifier and an opaque payload; its size is the payload length. -/
structure TlvRecord where
  typ : Nat
  value : List Nat
  deriving DecidableEq

/-- One forwarding step of a route: destination key bytes, channel identifier,
outgoing time-lock, amount to forward, the legacy-vs-TLV payload flag, and the
TLV record sequence (empty for legacy hops). -/
structure Hop where
  pubKeyBytes : List Nat
  channelID : Nat
  outgoingTimeLock : Nat
  amtToForward : Nat
  legacyPayload : Bool
  tlvRecords : List TlvRecord
  deriving DecidableEq

/-- An ordered sequence of hops together with the sender-facing totals and the
source vertex. -/
structure Route where
  totalTimeLock : Nat
  totalAmount : Nat
  sourcePubKey : List Nat
  hops : List Hop
  deriving DecidableEq

/-- The immutable creation record of a payment: 32-byte payment hash,
requested value, creation timestamp (unix seconds), opaque payment-request
bytes. -/
structure PaymentCreationInfo where
  paymentHash : List Nat
  value : Nat
  creationDate : Nat
  paymentRequest : List Nat
  deriving DecidableEq

/-- One attempt of a payment: monotonically assigned attempt identifier, the
32-byte session key scalar used for onion construction, and the route used. -/
structure PaymentAttemptInfo where
  paymentID : Nat
  sessionKey : List Nat
  route : Route
  deriving DecidableEq

/-- Upper bound of a 64-bit field. -/
def U64 : Nat := 256 ^ 8

/-- Structural validity of a TLV record: 64-bit type id, 64-bit length. -/
def TlvRecord.valid (r : TlvRecord) : Prop :=
  r.typ < U64 ∧ r.value.length < U64

instance (r : TlvRecord) : Decidable r.valid := by
  unfold TlvRecord.valid; infer_instance

/-- Structural validity of a hop: a 33-byte vertex, 64-bit numeric fields,
valid records, and the legacy/TLV invariant — a legacy hop carries no TLV
records. -/
def Hop.valid (h : Hop) : Prop :=
  h.pubKeyBytes.length = 33 ∧ h.channelID < U64 ∧ h.outgoingTimeLock < U64 ∧
  h.amtToForward < U64 ∧ h.tlvRecords.length < U64 ∧
  (∀ r ∈ h.tlvRecords, r.valid) ∧ (h.legacyPayload = true → h.tlvRecords = [])

instance (h : Hop) : Decidable h.valid := by
  unfold Hop.valid; infer_instance

/-- Structural validity of a route: bounded totals and hop count, a 33-byte
source vertex, valid hops. -/
def Route.valid (r : Route) : Prop :=
  r.totalTimeLock < U64 ∧ r.totalAmount < U64 ∧ r.sourcePubKey.length = 33 ∧
  r.hops.length < U64 ∧ ∀ h ∈ r.hops, h.valid

instance (r : Route) : Decidable r.valid := by
  unfold Route.valid; infer_instance

/-- Structural validity of a creation record: a 32-byte payment hash, 64-bit
value and timestamp, bounded request length. -/
def PaymentCreationInfo.valid (c : PaymentCreationInfo) : Prop :=
  c.paymentHash.length = 32 ∧ c.value < U64 ∧ c.creationDate < U64 ∧
  c.paymentRequest.length < U64

instance (c : PaymentCreationInfo) : Decidable c.valid := by
  unfold PaymentCreationInfo.valid; infer_instance

/-- Structural validity of an attempt record: a 64-bit attempt id, a 32-byte
session key, a valid route. -/
def PaymentAttemptInfo.valid (a : PaymentAttemptInfo) : Prop :=
  a.paymentID < U64 ∧ a.sessionKey.length = 32 ∧ a.route.valid

instance (a : PaymentAttemptInfo) : Decidable a.valid := by
  unfold PaymentAttemptInfo.valid; infer_instance

/-! ## Codec encoders and decoders

Modelled from the spec: the serialization functions
`serializePaymentCreationInfo`, `serializePaymentAttemptInfo`,
`SerializeRoute` and their deserializers are not part of this source tree
(only their tests are), so the wire format follows the spec's words — a hop is
a fixed prefix (vertex, channel id, time-lock, amount) plus a legacy/TLV
discriminator, a TLV hop carries its records in (type, length, value) wire
form, a route is totals, source vertex, hop count, then each hop, and
fixed-size fields are rejected when short. -/

/-- Wire form of one TLV record: type id, then length-prefixed payload. -/
def encodeTlvRecord (r : TlvRecord) : List Nat :=
  encULE 8 r.typ ++ encVarBytes r.value

/-- Decode one TLV record. -/
def decodeTlvRecord (s : List Nat) : Option (TlvRecord × List Nat) :=
  match decULE 8 s with
  | none => none
  | some (t, s1) =>
    match decVarBytes s1 with
    | none => none
    | some (v, s2) => some (⟨t, v⟩, s2)

/-- Decode a counted sequence of TLV records. -/
def decodeTlvRecords : Nat → List Nat → Option (List TlvRecord × List Nat)
  | 0, s => some ([], s)
  | k + 1, s =>
    match decodeTlvRecord s with
    | none => none
    | some (r, s1) =>
      match decodeTlvRecords k s1 with
      | none => none
      | some (rs, s2) => some (r :: rs, s2)

/-- Wire form of one hop: vertex, channel id, outgoing time-lock, amount,
then the payload discriminator — a legacy hop ends there, a TLV hop carries a
record count and each record's wire form. -/
def serializeHop (h : Hop) : List Nat :=
  h.pubKeyBytes ++ encULE 8 h.channelID ++ encULE 8 h.outgoingTimeLock ++
    encULE 8 h.amtToForward ++
    (if h.legacyPayload then [1] else
      0 :: (encULE 8 h.tlvRecords.length ++
        (h.tlvRecords.map encodeTlvRecord).flatten))

/-- Decode one hop written by `serializeHop`; fails on truncated fields or an
unknown payload discriminator. -/
def decodeHop (s : List Nat) : Option (Hop × List Nat) :=
  match readBytes 33 s with
  | none => none
  | some (pk, s1) =>
    match decULE 8 s1 with
    | none => none
    | some (cid, s2) =>
      match decULE 8 s2 with
      | none => none
      | some (otl, s3) =>
        match decULE 8 s3 with
        | none => none
        | some (amt, s4) =>
          match s4 with
          | [] => none
          | flag :: s5 =>
            if flag = 1 then some (⟨pk, cid, otl, amt, true, []⟩, s5)
            else if flag = 0 then
              match decULE 8 s5 with
              | none => none
              | some (cnt, s6) =>
                match decodeTlvRecords cnt s6 with
                | none => none
                | some (rs, s7) => some (⟨pk, cid, otl, amt, false, rs⟩, s7)
            else none

/-- Wire form of a route: total time-lock, total amount, source vertex, hop
count, then each hop. -/
def SerializeRoute (r : Route) : List Nat :=
  encULE 8 r.totalTimeLock ++ encULE 8 r.totalAmount ++ r.sourcePubKey ++
    encULE 8 r.hops.length ++ (r.hops.map serializeHop).flatten

/-- Decode a counted sequence of hops. -/
def decodeHops : Nat → List Nat → Option (List Hop × List Nat)
  | 0, s => some ([], s)
  | k + 1, s =>
    match decodeHop s with
    | none => none
    | some (h, s1) =>
      match decodeHops k s1 with
      | none => none
      | some (hs, s2) => some (h :: hs, s2)

/-- Decode a route written by `SerializeRoute`. -/
def decodeRoute (s : List Nat) : Option (Route × List Nat) :=
  match decULE 8 s with
  | none => none
  | some (ttl, s1) =>
    match decULE 8 s1 with
    | none => none
    | some (amt, s2) =>
      match readBytes 33 s2 with
      | none => none
      | some (src, s3) =>
        match decULE 8 s3 with
        | none => none
        | some (cnt, s4) =>
          match decodeHops cnt s4 with
          | none => none
          | some (hs, s5) => some (⟨ttl, amt, src, hs⟩, s5)

/-- Top-level route deserializer. -/
def DeserializeRoute (s : List Nat) : Option Route :=
  (decodeRoute s).map Prod.fst

/-- Wire form of a payment creation record: payment hash, value, creation
timestamp, length-prefixed payment request. -/
def serializePaymentCreationInfo (c : PaymentCreationInfo) : List Nat :=
  c.paymentHash ++ encULE 8 c.value ++ encULE 8 c.creationDate ++
    encVarBytes c.paymentRequest

/-- Decode a payment creation record. -/
def deserializePaymentCreationInfo (s : List Nat) :
    Option PaymentCreationInfo :=
  match readBytes 32 s with
  | none => none
  | some (hash, s1) =>
    match decULE 8 s1 with
    | none => none
    | some (v, s2) =>
      match decULE 8 s2 with
      | none => none
      | some (d, s3) =>
        match decVarBytes s3 with
        | none => none
        | some (req, _) => some ⟨hash, v, d, req⟩

/-- Wire form of a payment attempt record: attempt id, session key scalar,
then the route. -/
def serializePaymentAttemptInfo (a : PaymentAttemptInfo) : List Nat :=
  encULE 8 a.paymentID ++ a.sessionKey ++ SerializeRoute a.route

/-- Decode a payment attempt record. -/
def deserializePaymentAttemptInfo (s : List Nat) :
    Option PaymentAttemptInfo :=
  match decULE 8 s with
  | none => none
  | some (pid, s1) =>
    match readBytes 32 s1 with
    | none => none
    | some (sk, s2) =>
      match decodeRoute s2 with
      | none => none
      | some (r, _) => some ⟨pid, sk, r⟩

/-! ## Codec round-trip lemmas -/

theorem decodeTlvRecord_encodeTlvRecord (r : TlvRecord) (hv : r.valid)
    (rest : List Nat) :
    decodeTlvRecord (encodeTlvRecord r ++ rest) = some (r, rest) := by
  obtain ⟨ht, hl⟩ := hv
  simp only [encodeTlvRecord, decodeTlvRecord, List.append_assoc,
    decULE_encULE 8 r.typ ht, decVarBytes_encVarBytes r.value hl]

theorem decodeTlvRecords_flatten (rs : List TlvRecord) :
    (∀ r ∈ rs, r.valid) → ∀ (rest : List Nat),
    decodeTlvRecords rs.length ((rs.map encodeTlvRecord).flatten ++ rest) =
      some (rs, rest) := by
  induction rs with
  | nil => intro _ rest; rfl
  | cons r tl ih =>
    intro hv rest
    have hr : r.valid := hv r (List.mem_cons_self r tl)
    have htl : ∀ x ∈ tl, x.valid := fun x hx => hv x (List.mem_cons_of_mem r hx)
    simp only [List.map_cons, List.flatten_cons, List.length_cons,
      List.append_assoc, decodeTlvRecords,
      decodeTlvRecord_encodeTlvRecord r hr, ih htl rest]

theorem decodeHop_serializeHop (h : Hop) (hv : h.valid) (rest : List Nat) :
    decodeHop (serializeHop h ++ rest) = some (h, rest) := by
  obtain ⟨pk, cid, otl, amt, legacy, rs⟩ := h
  obtain ⟨hpk, hcid, hotl, hamt, hcnt, hrec, hleg⟩ := hv
  have hrb : ∀ (X : List Nat), readBytes 33 (pk ++ X) = some (pk, X) := by
    intro X
    have := readBytes_append pk X
    rwa [hpk] at this
  cases legacy with
  | true =>
    have hrs : rs = [] := hleg rfl
    subst hrs
    simp [serializeHop, decodeHop, List.append_assoc, hrb,
      decULE_encULE 8 cid hcid, decULE_encULE 8 otl hotl,
      decULE_encULE 8 amt hamt]
  | false =>
    simp [serializeHop, decodeHop, List.append_assoc, hrb,
      decULE_encULE 8 cid hcid, decULE_encULE 8 otl hotl,
      decULE_encULE 8 amt hamt, decULE_encULE 8 rs.length hcnt,
      decodeTlvRecords_flatten rs hrec]

theorem decodeHops_flatten (hs : List Hop) :
    (∀ h ∈ hs, h.valid) → ∀ (rest : List Nat),
    decodeHops hs.length ((hs.map serializeHop).flatten ++ rest) =
      some (hs, rest) := by
  induction hs with
  | nil => intro _ rest; rfl
  | cons h tl ih =>
    intro hv rest
    have hh : h.valid := hv h (List.mem_cons_self h tl)
    have htl : ∀ x ∈ tl, x.valid := fun x hx => hv x (List.mem_cons_of_mem h hx)
    simp only [List.map_cons, List.flatten_cons, List.length_cons,
      List.append_assoc, decodeHops, decodeHop_serializeHop h hh, ih htl rest]

theorem decodeRoute_SerializeRoute (r : Route) (hv : r.valid)
    (rest : List Nat) :
    decodeRoute (SerializeRoute r ++ rest) = some (r, rest) := by
  obtain ⟨ttl, amt, src, hs⟩ := r
  obtain ⟨httl, hamt, hsrc, hcnt, hhops⟩ := hv
  have hrb : ∀ (X : List Nat), readBytes 33 (src ++ X) = some (src, X) := by
    intro X
    have := readBytes_append src X
    rwa [hsrc] at this
  simp [SerializeRoute, decodeRoute, List.append_assoc, hrb,
    decULE_encULE 8 ttl httl, decULE_encULE 8 amt hamt,
    decULE_encULE 8 hs.length hcnt, decodeHops_flatten hs hhops]

theorem DeserializeRoute_SerializeRoute (r : Route) (hv : r.valid) :
    DeserializeRoute (SerializeRoute r) = some r := by
  have := decodeRoute_SerializeRoute r hv []
  rw [List.append_nil] at this
  simp [DeserializeRoute, this]

theorem deserialize_serializePaymentCreationInfo (c : PaymentCreationInfo)
    (hv : c.valid) :
    deserializePaymentCreationInfo (serializePaymentCreationInfo c) =
      some c := by
  obtain ⟨hash, v, d, req⟩ := c
  obtain ⟨hh, hvv, hd, hreq⟩ := hv
  have hrb : ∀ (X : List Nat), readBytes 32 (hash ++ X) = some (hash, X) := by
    intro X
    have := readBytes_append hash X
    rwa [hh] at this
  have hvb : decVarBytes (encVarBytes req) = some (req, []) := by
    have := decVarBytes_encVarBytes req hreq []
    rwa [List.append_nil] at this
  simp [serializePaymentCreationInfo, deserializePaymentCreationInfo,
    List.append_assoc, hrb, decULE_encULE 8 v hvv, decULE_encULE 8 d hd, hvb]

theorem deserialize_serializePaymentAttemptInfo (a : PaymentAttemptInfo)
    (hv : a.valid) :
    deserializePaymentAttemptInfo (serializePaymentAttemptInfo a) =
      some a := by
  obtain ⟨pid, sk, r⟩ := a
  obtain ⟨hpid, hsk, hr⟩ := hv
  have hrb : ∀ (X : List Nat), readBytes 32 (sk ++ X) = some (sk, X) := by
    intro X
    have := readBytes_append sk X
    rwa [hsk] at this
  have hroute := decodeRoute_SerializeRoute r hr []
  rw [List.append_nil] at hroute
  simp [serializePaymentAttemptInfo, deserializePaymentAttemptInfo,
    List.append_assoc, hrb, decULE_encULE 8 pid hpid, hroute]

/-! ## Concrete codec test values, mirroring the serialization tests -/

/-- Payload bytes used by the test TLV records. -/
def tlvBytes : List Nat := [1, 2, 3]

/-- A TLV hop with two records, as in the serialization test. -/
def testHop1 : Hop :=
  { pubKeyBytes := List.replicate 33 7, channelID := 12345,
    outgoingTimeLock := 111, amtToForward := 555, legacyPayload := false,
    tlvRecords := [⟨1, tlvBytes⟩, ⟨2, tlvBytes⟩] }

/-- A legacy hop, as in the serialization test. -/
def testHop2 : Hop :=
  { pubKeyBytes := List.replicate 33 7, channelID := 12345,
    outgoingTimeLock := 111, amtToForward := 555, legacyPayload := true,
    tlvRecords := [] }

/-- A route with one TLV hop and one legacy hop, as in the serialization
test. -/
def testRoute : Route :=
  { totalTimeLock := 123, totalAmount := 1234567,
    sourcePubKey := List.replicate 33 7, hops := [testHop1, testHop2] }

/-- A payment creation record, as in the serialization test. -/
def testCreationInfo : PaymentCreationInfo :=
  { paymentHash := List.replicate 32 9, value := 1000, creationDate := 1,
    paymentRequest := [] }

/-- A payment attempt record carrying the test route. -/
def testAttemptInfo : PaymentAttemptInfo :=
  { paymentID := 44, sessionKey := List.replicate 32 5, route := testRoute }

/-- C1: for every valid Route, Hop, PaymentCreationInfo and
PaymentAttemptInfo value, deserializing the output of the corresponding
serialize function yields the original value in every field, including each
hop's TLV record sequence and the legacy-vs-TLV payload distinction. -/
theorem C1_codec_round_trip (r : Route) (h : Hop) (c : PaymentCreationInfo)
    (a : PaymentAttemptInfo) (hr : r.valid) (hh : h.valid) (hc : c.valid)
    (ha : a.valid) :
    DeserializeRoute (SerializeRoute r) = some r ∧
    decodeHop (serializeHop h) = some (h, []) ∧
    deserializePaymentCreationInfo (serializePaymentCreationInfo c) = some c ∧
    deserializePaymentAttemptInfo (serializePaymentAttemptInfo a) = some a := by
  refine ⟨DeserializeRoute_SerializeRoute r hr, ?_,
    deserialize_serializePaymentCreationInfo c hc,
    deserialize_serializePaymentAttemptInfo a ha⟩
  have := decodeHop_serializeHop h hh []
  rwa [List.append_nil] at this

/-- Witness for C1 at the concrete test values. -/
theorem C1_codec_round_trip_witness :
    testRoute.valid ∧ testHop1.valid ∧ testCreationInfo.valid ∧
    testAttemptInfo.valid ∧
    (DeserializeRoute (SerializeRoute testRoute) = some testRoute ∧
     decodeHop (serializeHop testHop1) = some (testHop1, []) ∧
     deserializePaymentCreationInfo
       (serializePaymentCreationInfo testCreationInfo) = some testCreationInfo ∧
     deserializePaymentAttemptInfo
       (serializePaymentAttemptInfo testAttemptInfo) = some testAttemptInfo) :=
  ⟨by decide, by decide, by decide, by decide,
   C1_codec_round_trip testRoute testHop1 testCreationInfo testAttemptInfo
     (by decide) (by decide) (by decide) (by decide)⟩

/-! ## Witness cache

Modelled from the spec: the WitnessCache implementation is not part of this
source tree (only its tests are). Witnesses are stored keyed by
(class, lookup key); the recognized classes are a closed set containing the
hash-preimage class `Sha256HashWitness`; `AddWitnesses` derives each lookup
key via the class's key function and fails the whole call with
`ErrUnknownWitnessType` on an unrecognized class without partially storing
any witness; `LookupWitness` fails with `ErrNoWitnesses` when the entry is
absent. The class's key function (SHA-256 for the hash-preimage class) is an
external hash, passed in as `keyFn`. -/

/-- Witness cache failures: unknown class, or no witness stored. -/
inductive WitnessCacheErr where
  | errUnknownWitnessType
  | errNoWitnesses
  deriving DecidableEq

/-- The hash-preimage witness class identifier. -/
def Sha256HashWitness : Nat := 1

/-- Membership in the closed set of recognized witness classes. -/
def recognizedWitnessClass (cls : Nat) : Bool :=
  decide (cls = Sha256HashWitness)

/-- Cache contents: entries of ((class, lookup key), witness bytes), newest
first. -/
abbrev WCache : Type := List ((Nat × List Nat) × List Nat)

/-- A settlement preimage, carried as raw bytes. -/
structure Preimage where
  bytes : List Nat
  deriving DecidableEq

/-- Look up the witness stored under (class, key); fails with
`errNoWitnesses` when absent. -/
def LookupWitness (cache : WCache) (cls : Nat) (k : List Nat) :
    Except WitnessCacheErr (List Nat) :=
  match cache.find? (fun e => decide (e.1 = (cls, k))) with
  | none => Except.error WitnessCacheErr.errNoWitnesses
  | some e => Except.ok e.2

/-- Store a witness under (class, key), replacing any previous entry for that
pair. -/
def insertWitness (cache : WCache) (cls : Nat) (k w : List Nat) : WCache :=
  ((cls, k), w) :: cache.filter (fun e => !decide (e.1 = (cls, k)))

/-- Add witnesses under a class: reject an unrecognized class before touching
the store, otherwise derive each witness's lookup key with the class's key
function and store every entry. -/
def AddWitnesses (keyFn : List Nat → List Nat) (cache : WCache) (cls : Nat)
    (ws : List (List Nat)) : Except WitnessCacheErr WCache :=
  if recognizedWitnessClass cls then
    Except.ok (ws.foldl (fun c w => insertWitness c cls (keyFn w) w) cache)
  else
    Except.error WitnessCacheErr.errUnknownWitnessType

/-- The cache contents after an `AddWitnesses` call: updated on success,
untouched on failure. -/
def runAddWitnesses (keyFn : List Nat → List Nat) (cache : WCache) (cls : Nat)
    (ws : List (List Nat)) : WCache :=
  match AddWitnesses keyFn cache cls ws with
  | Except.ok c => c
  | Except.error _ => cache

/-- Typed convenience insertion for the hash-preimage class: pair each raw
preimage with its derived key directly and store the entries under
`Sha256HashWitness`. -/
def AddSha256Witnesses (keyFn : List Nat → List Nat) (cache : WCache)
    (ps : List Preimage) : Except WitnessCacheErr WCache :=
  Except.ok ((ps.map (fun p => (keyFn p.bytes, p.bytes))).foldl
    (fun c e => insertWitness c Sha256HashWitness e.1 e.2) cache)

/-- Remove the entry stored under (class, key). -/
def DeleteWitness (cache : WCache) (cls : Nat) (k : List Nat) : WCache :=
  cache.filter (fun e => !decide (e.1 = (cls, k)))

/-- Remove every entry of a class. -/
def DeleteWitnessClass (cache : WCache) (cls : Nat) : WCache :=
  cache.filter (fun e => !decide (e.1.1 = cls))

theorem find?_filter_of_imp {α : Type} (l : List α) (p q : α → Bool)
    (h : ∀ x, p x = true → q x = true) :
    (l.filter q).find? p = l.find? p := by
  induction l with
  | nil => rfl
  | cons a tl ih =>
    by_cases hq : q a = true
    · by_cases hp : p a = true
      · simp [List.filter_cons, hq, List.find?_cons, hp]
      · simp only [Bool.not_eq_true] at hp
        simp [List.filter_cons, hq, List.find?_cons, hp, ih]
    · simp only [Bool.not_eq_true] at hq
      have hp : p a = false := by
        cases hpa : p a with
        | false => rfl
        | true => rw [h a hpa] at hq; cases hq
      simp [List.filter_cons, hq, List.find?_cons, hp, ih]

/-- A small concrete cache with entries in two classes. -/
def testWCache : WCache := [((1, [9]), [7]), ((2, [5]), [6])]

/-- C4: adding preimages through the typed `AddSha256Witnesses` operation is
observably identical to adding their raw bytes through the generic
`AddWitnesses` with the hash-preimage class — the same result, and the same
stored bytes under every preimage's derived key. -/
theorem C4_addSha256_matches_generic (keyFn : List Nat → List Nat)
    (cache : WCache) (ps : List Preimage) :
    AddSha256Witnesses keyFn cache ps =
      AddWitnesses keyFn cache Sha256HashWitness (ps.map Preimage.bytes) ∧
    ∀ (p : Preimage) (c1 c2 : WCache),
      AddSha256Witnesses keyFn cache ps = Except.ok c1 →
      AddWitnesses keyFn cache Sha256HashWitness (ps.map Preimage.bytes) =
        Except.ok c2 →
      LookupWitness c1 Sha256HashWitness (keyFn p.bytes) =
        LookupWitness c2 Sha256HashWitness (keyFn p.bytes) := by
  have heq : AddSha256Witnesses keyFn cache ps =
      AddWitnesses keyFn cache Sha256HashWitness (ps.map Preimage.bytes) := by
    simp [AddSha256Witnesses, AddWitnesses, recognizedWitnessClass,
      List.foldl_map]
  refine ⟨heq, ?_⟩
  intro p c1 c2 h1 h2
  rw [heq, h2] at h1
  injection h1 with h
  rw [h]

/-- Witness for C4 on one concrete preimage. -/
theorem C4_addSha256_matches_generic_witness :
    AddSha256Witnesses id [] [⟨[1, 2, 3]⟩] =
      AddWitnesses id [] Sha256HashWitness ([⟨[1, 2, 3]⟩].map Preimage.bytes) ∧
    AddSha256Witnesses id [] [⟨[1, 2, 3]⟩] =
      Except.ok [((1, [1, 2, 3]), [1, 2, 3])] ∧
    LookupWitness [((1, [1, 2, 3]), [1, 2, 3])] Sha256HashWitness
        (id [1, 2, 3] : List Nat) =
      LookupWitness [((1, [1, 2, 3]), [1, 2, 3])] Sha256HashWitness
        (id [1, 2, 3] : List Nat) :=
  ⟨(C4_addSha256_matches_generic id [] [⟨[1, 2, 3]⟩]).1, rfl,
   (C4_addSha256_matches_generic id [] [⟨[1, 2, 3]⟩]).2 ⟨[1, 2, 3]⟩
     [((1, [1, 2, 3]), [1, 2, 3])] [((1, [1, 2, 3]), [1, 2, 3])]
     rfl rfl⟩

/-- C5: adding witnesses under an unrecognized class fails with
`errUnknownWitnessType` and stores nothing — every lookup afterwards, in any
class, returns the same result as before the call. -/
theorem C5_unknown_class_rejected (keyFn : List Nat → List Nat)
    (cache : WCache) (cls : Nat) (ws : List (List Nat))
    (h : recognizedWitnessClass cls = false) :
    AddWitnesses keyFn cache cls ws =
      Except.error WitnessCacheErr.errUnknownWitnessType ∧
    ∀ (cls' : Nat) (k : List Nat),
      LookupWitness (runAddWitnesses keyFn cache cls ws) cls' k =
        LookupWitness cache cls' k := by
  have hadd : AddWitnesses keyFn cache cls ws =
      Except.error WitnessCacheErr.errUnknownWitnessType := by
    simp [AddWitnesses, h]
  refine ⟨hadd, fun cls' k => ?_⟩
  simp [runAddWitnesses, hadd]

/-- Witness for C5 at the unrecognized class 234 of the test. -/
theorem C5_unknown_class_rejected_witness :
    recognizedWitnessClass 234 = false ∧
    AddWitnesses id testWCache 234 [[5]] =
      Except.error WitnessCacheErr.errUnknownWitnessType ∧
    LookupWitness (runAddWitnesses id testWCache 234 [[5]]) 1 [9] =
      LookupWitness testWCache 1 [9] :=
  ⟨by decide, (C5_unknown_class_rejected id testWCache 234 [[5]] (by decide)).1,
   (C5_unknown_class_rejected id testWCache 234 [[5]] (by decide)).2 1 [9]⟩

/-- C6: deleting an entry then looking it up yields `errNoWitnesses`;
deleting a class empties exactly that class — every lookup in it fails with
`errNoWitnesses`, while lookups in every other class are unchanged. -/
theorem C6_delete_then_lookup (cache : WCache) (cls : Nat) (k : List Nat) :
    LookupWitness (DeleteWitness cache cls k) cls k =
      Except.error WitnessCacheErr.errNoWitnesses ∧
    (∀ (k' : List Nat), LookupWitness (DeleteWitnessClass cache cls) cls k' =
      Except.error WitnessCacheErr.errNoWitnesses) ∧
    (∀ (cls' : Nat) (k' : List Nat), cls' ≠ cls →
      LookupWitness (DeleteWitnessClass cache cls) cls' k' =
        LookupWitness cache cls' k') := by
  refine ⟨?_, ?_, ?_⟩
  · unfold LookupWitness DeleteWitness
    have hnone : (cache.filter (fun e => !decide (e.1 = (cls, k)))).find?
        (fun e => decide (e.1 = (cls, k))) = none := by
      rw [List.find?_eq_none]
      intro x hx
      rw [List.mem_filter] at hx
      simpa using hx.2
    rw [hnone]
  · intro k'
    unfold LookupWitness DeleteWitnessClass
    have hnone : (cache.filter (fun e => !decide (e.1.1 = cls))).find?
        (fun e => decide (e.1 = (cls, k'))) = none := by
      rw [List.find?_eq_none]
      intro x hx
      rw [List.mem_filter] at hx
      intro hpx
      have h1 : x.1 = (cls, k') := of_decide_eq_true hpx
      have h2 := hx.2
      rw [h1] at h2
      simp at h2
    rw [hnone]
  · intro cls' k' hne
    unfold LookupWitness DeleteWitnessClass
    rw [find?_filter_of_imp]
    intro x hpx
    have h1 : x.1 = (cls', k') := of_decide_eq_true hpx
    simp [h1, hne]

/-- Witness for C6 on the concrete two-class cache. -/
theorem C6_delete_then_lookup_witness :
    (LookupWitness (DeleteWitness testWCache 1 [9]) 1 [9] =
      Except.error WitnessCacheErr.errNoWitnesses) ∧
    (LookupWitness (DeleteWitnessClass testWCache 1) 1 [9] =
      Except.error WitnessCacheErr.errNoWitnesses) ∧
    (2 : Nat) ≠ 1 ∧
    LookupWitness (DeleteWitnessClass testWCache 1) 2 [5] =
      LookupWitness testWCache 2 [5] :=
  ⟨(C6_delete_then_lookup testWCache 1 [9]).1,
   (C6_delete_then_lookup testWCache 1 [9]).2.1 [9],
   by decide,
   (C6_delete_then_lookup testWCache 1 [9]).2.2 2 [5] (by decide)⟩

/-! ## Payment session source

Embedding of `src/routing/payment_session_source.go`. A vertex is the 33-byte
compressed serialization of a node key; `secp256k1.ParsePubKey` is an
external collaborator and is passed in as the `parsePubKey` parameter; the
`Graph.SourceNode()` lookup is likewise passed in as its result. -/

/-- A vertex: the 33 bytes of a compressed public key. -/
abbrev Vertex : Type := List Nat

/-- A parsed public key, carried as its compressed serialization. -/
structure PubKey where
  bytes : List Nat
  deriving DecidableEq

/-- The vertex of a public key: its compressed serialization bytes. -/
def NewVertex (pk : PubKey) : Vertex := pk.bytes

/-- A hop hint from a payment request: start node, channel, fee and
time-lock parameters. -/
structure HopHint where
  nodeID : PubKey
  channelID : Nat
  feeBaseMAtoms : Nat
  feeProportionalMillionths : Nat
  cltvExpiryDelta : Nat
  deriving DecidableEq

/-- A synthetic channel edge, with the fields `NewPaymentSession` assigns:
end node vertex, channel id, fees, time-lock delta. -/
structure ChannelEdgePolicy where
  node : Vertex
  channelID : Nat
  feeBaseMAtoms : Nat
  feeProportionalMillionths : Nat
  timeLockDelta : Nat
  deriving DecidableEq

/-- The synthetic edge a hop hint produces, ending at the given vertex. -/
def hintEdge (h : HopHint) (endV : Vertex) : ChannelEdgePolicy :=
  { node := endV, channelID := h.channelID, feeBaseMAtoms := h.feeBaseMAtoms,
    feeProportionalMillionths := h.feeProportionalMillionths,
    timeLockDelta := h.cltvExpiryDelta }

/-- Failures of session construction: the target key did not parse, or the
graph's source node lookup failed. -/
inductive SessionErr where
  | parsePubKeyFailed
  | sourceNodeFailed
  deriving DecidableEq

/-- The edges contributed by one chain of hop hints: each hint's edge ends at
the next hint's node; the last hint's edge ends at the parsed target key, and
a target that fails to parse aborts the construction. -/
def hintChainEdges (parsePubKey : Vertex → Option PubKey) (target : Vertex) :
    List HopHint → Except SessionErr (List (Vertex × ChannelEdgePolicy))
  | [] => Except.ok []
  | [h] =>
    match parsePubKey target with
    | none => Except.error SessionErr.parsePubKeyFailed
    | some pk => Except.ok [(NewVertex h.nodeID, hintEdge h (NewVertex pk))]
  | h :: h2 :: t =>
    match hintChainEdges parsePubKey target (h2 :: t) with
    | Except.error e => Except.error e
    | Except.ok tail =>
      Except.ok ((NewVertex h.nodeID, hintEdge h (NewVertex h2.nodeID)) :: tail)

/-- The additional-edges map accumulated over all hint chains, as a keyed
list of (start vertex, edge) entries in insertion order. -/
def buildAdditionalEdges (parsePubKey : Vertex → Option PubKey)
    (target : Vertex) :
    List (List HopHint) → Except SessionErr (List (Vertex × ChannelEdgePolicy))
  | [] => Except.ok []
  | c :: cs =>
    match hintChainEdges parsePubKey target c with
    | Except.error e => Except.error e
    | Except.ok es =>
      match buildAdditionalEdges parsePubKey target cs with
      | Except.error e => Except.error e
      | Except.ok rest => Except.ok (es ++ rest)

/-- The state of a payment session: the additional hint edges and the
pre-built-route fields. -/
structure PaymentSessionState where
  additionalEdges : List (Vertex × ChannelEdgePolicy)
  preBuiltRoute : Option Route
  preBuiltRouteTried : Bool
  deriving DecidableEq

/-- Session construction: build the hint edges (aborting on an unparseable
target), look up the graph source node, and return a session with no
pre-built route. -/
def NewPaymentSession (parsePubKey : Vertex → Option PubKey)
    (sourceNode : Except SessionErr Unit) (routeHints : List (List HopHint))
    (target : Vertex) : Except SessionErr PaymentSessionState :=
  match buildAdditionalEdges parsePubKey target routeHints with
  | Except.error e => Except.error e
  | Except.ok edges =>
    match sourceNode with
    | Except.error e => Except.error e
    | Except.ok _ =>
      Except.ok { additionalEdges := edges, preBuiltRoute := none,
                  preBuiltRouteTried := false }

/-- A session bound to one pre-built route, used for replaying a
previously-built route. -/
def NewPaymentSessionForRoute (preBuiltRoute : Route) : PaymentSessionState :=
  { additionalEdges := [], preBuiltRoute := some preBuiltRoute,
    preBuiltRouteTried := false }

/-- The zero value of a route. -/
def emptyRoute : Route :=
  { totalTimeLock := 0, totalAmount := 0, sourcePubKey := List.replicate 33 0,
    hops := [] }

/-- An immediately exhausted session: an empty pre-built route already marked
as tried. -/
def NewPaymentSessionEmpty : PaymentSessionState :=
  { additionalEdges := [], preBuiltRoute := some emptyRoute,
    preBuiltRouteTried := true }

/-- Route request failures. -/
inductive RouteErr where
  | errNoRouteFound
  deriving DecidableEq

/-- Modelled from the spec: the `RequestRoute` method of the payment session
is not part of this source tree. A session bound to a pre-built route returns
that route on the first call and `ErrNoRouteFound` on every later call;
without a pre-built route, pathfinding runs, abstracted here as the
`pathfind` parameter. -/
def RequestRoute (pathfind : PaymentSessionState → Except RouteErr Route)
    (s : PaymentSessionState) :
    Except RouteErr Route × PaymentSessionState :=
  match s.preBuiltRoute with
  | some r =>
    if s.preBuiltRouteTried then
      (Except.error RouteErr.errNoRouteFound, s)
    else
      (Except.ok r, { s with preBuiltRouteTried := true })
  | none => (pathfind s, s)

/-- The result of the (n+1)-st `RequestRoute` call on a session. -/
def nthRequestRoute (pathfind : PaymentSessionState → Except RouteErr Route)
    (s : PaymentSessionState) : Nat → Except RouteErr Route
  | 0 => (RequestRoute pathfind s).1
  | n + 1 => nthRequestRoute pathfind (RequestRoute pathfind s).2 n

theorem nthRequestRoute_exhausted
    (pathfind : PaymentSessionState → Except RouteErr Route)
    (s : PaymentSessionState) (r : Route) (h1 : s.preBuiltRoute = some r)
    (h2 : s.preBuiltRouteTried = true) :
    ∀ (n : Nat),
      nthRequestRoute pathfind s n = Except.error RouteErr.errNoRouteFound := by
  have hstep : RequestRoute pathfind s =
      (Except.error RouteErr.errNoRouteFound, s) := by
    unfold RequestRoute
    rw [h1]
    simp [h2]
  intro n
  induction n with
  | zero => simp [nthRequestRoute, hstep]
  | succ n ih =>
    simp only [nthRequestRoute, hstep]
    exact ih

/-- C2: a session created by `NewPaymentSessionForRoute` returns its bound
route on the first `RequestRoute` call and `ErrNoRouteFound` on every
subsequent call. -/
theorem C2_prebuilt_route_once
    (pathfind : PaymentSessionState → Except RouteErr Route) (r : Route) :
    nthRequestRoute pathfind (NewPaymentSessionForRoute r) 0 = Except.ok r ∧
    ∀ (n : Nat), nthRequestRoute pathfind (NewPaymentSessionForRoute r) (n + 1) =
      Except.error RouteErr.errNoRouteFound := by
  refine ⟨rfl, fun n => ?_⟩
  show nthRequestRoute pathfind
    (RequestRoute pathfind (NewPaymentSessionForRoute r)).2 n =
    Except.error RouteErr.errNoRouteFound
  exact nthRequestRoute_exhausted pathfind _ r rfl rfl n

/-- C3: a session created by `NewPaymentSessionEmpty` returns
`ErrNoRouteFound` on every `RequestRoute` call, including the first. -/
theorem C3_empty_session_exhausted
    (pathfind : PaymentSessionState → Except RouteErr Route) :
    ∀ (n : Nat), nthRequestRoute pathfind NewPaymentSessionEmpty n =
      Except.error RouteErr.errNoRouteFound :=
  nthRequestRoute_exhausted pathfind NewPaymentSessionEmpty emptyRoute rfl rfl

/-- The claim's description of the synthetic edges of one hint chain: exactly
one edge per hop hint, keyed by the hint's start vertex; the edge ends at the
next hint's node, or at the target vertex for the last hint, and copies the
hint's channel id, fees and time-lock delta. Stated from the claim's words,
to be compared with `hintChainEdges` built from the source. -/
def hintChainSpec (target : Vertex) :
    List HopHint → List (Vertex × ChannelEdgePolicy)
  | [] => []
  | [h] => [(NewVertex h.nodeID, hintEdge h target)]
  | h :: h2 :: t =>
    (NewVertex h.nodeID, hintEdge h (NewVertex h2.nodeID)) ::
      hintChainSpec target (h2 :: t)

theorem hintChainSpec_length (target : Vertex) :
    ∀ (chain : List HopHint), (hintChainSpec target chain).length = chain.length
  | [] => rfl
  | [_] => rfl
  | _ :: h2 :: t => by
    simp [hintChainSpec, hintChainSpec_length target (h2 :: t)]

theorem hintChainEdges_spec (parsePubKey : Vertex → Option PubKey)
    (target : Vertex) (pk : PubKey) (hparse : parsePubKey target = some pk)
    (hpk : NewVertex pk = target) :
    ∀ (chain : List HopHint),
      hintChainEdges parsePubKey target chain =
        Except.ok (hintChainSpec target chain)
  | [] => rfl
  | [h] => by
    simp [hintChainEdges, hintChainSpec, hparse, hpk]
  | h :: h2 :: t => by
    have ih := hintChainEdges_spec parsePubKey target pk hparse hpk (h2 :: t)
    simp [hintChainEdges, hintChainSpec, ih]

theorem buildAdditionalEdges_spec (parsePubKey : Vertex → Option PubKey)
    (target : Vertex) (pk : PubKey) (hparse : parsePubKey target = some pk)
    (hpk : NewVertex pk = target) :
    ∀ (hints : List (List HopHint)),
      buildAdditionalEdges parsePubKey target hints =
        Except.ok ((hints.map (hintChainSpec target)).flatten)
  | [] => rfl
  | c :: cs => by
    have h1 := hintChainEdges_spec parsePubKey target pk hparse hpk c
    have ih := buildAdditionalEdges_spec parsePubKey target pk hparse hpk cs
    simp [buildAdditionalEdges, h1, ih]

/-- C7: when the target parses back to itself, `NewPaymentSession` succeeds
and its additional-edges map holds, per hint chain and in order, exactly one
edge per hop hint keyed by that hint's start vertex, ending at the next
hint's node or at the target for the last hint, with channel id, fees and
time-lock delta copied from the hint — the `hintChainSpec` shape. -/
theorem C7_hint_edges (parsePubKey : Vertex → Option PubKey)
    (routeHints : List (List HopHint)) (target : Vertex) (pk : PubKey)
    (hparse : parsePubKey target = some pk) (hpk : NewVertex pk = target) :
    NewPaymentSession parsePubKey (Except.ok ()) routeHints target =
      Except.ok
        { additionalEdges := (routeHints.map (hintChainSpec target)).flatten,
          preBuiltRoute := none, preBuiltRouteTried := false } ∧
    ∀ (chain : List HopHint),
      (hintChainSpec target chain).length = chain.length := by
  refine ⟨?_, hintChainSpec_length target⟩
  have hb := buildAdditionalEdges_spec parsePubKey target pk hparse hpk
    routeHints
  simp [NewPaymentSession, hb]

/-- Two concrete hop hints forming one chain. -/
def testHintA : HopHint :=
  { nodeID := ⟨List.replicate 33 1⟩, channelID := 10, feeBaseMAtoms := 20,
    feeProportionalMillionths := 30, cltvExpiryDelta := 40 }

/-- Second concrete hop hint. -/
def testHintB : HopHint :=
  { nodeID := ⟨List.replicate 33 2⟩, channelID := 11, feeBaseMAtoms := 21,
    feeProportionalMillionths := 31, cltvExpiryDelta := 41 }

/-- A concrete target vertex. -/
def testTarget : Vertex := List.replicate 33 3

/-- Witness for C7: a two-hint chain against a parse function that returns
the target's bytes as the key. -/
theorem C7_hint_edges_witness :
    (fun (v : Vertex) => some (PubKey.mk v)) testTarget =
      some (PubKey.mk testTarget) ∧
    NewVertex (PubKey.mk testTarget) = testTarget ∧
    NewPaymentSession (fun (v : Vertex) => some (PubKey.mk v)) (Except.ok ())
        [[testHintA, testHintB]] testTarget =
      Except.ok
        { additionalEdges :=
            ([[testHintA, testHintB]].map (hintChainSpec testTarget)).flatten,
          preBuiltRoute := none, preBuiltRouteTried := false } ∧
    (hintChainSpec testTarget [testHintA, testHintB]).length =
      [testHintA, testHintB].length :=
  ⟨rfl, rfl,
   (C7_hint_edges (fun (v : Vertex) => some (PubKey.mk v))
     [[testHintA, testHintB]] testTarget (PubKey.mk testTarget) rfl rfl).1,
   (C7_hint_edges (fun (v : Vertex) => some (PubKey.mk v))
     [[testHintA, testHintB]] testTarget (PubKey.mk testTarget) rfl rfl).2
     [testHintA, testHintB]⟩

theorem hintChainEdges_err (parsePubKey : Vertex → Option PubKey)
    (target : Vertex) (hparse : parsePubKey target = none) :
    ∀ (chain : List HopHint), chain ≠ [] →
      hintChainEdges parsePubKey target chain =
        Except.error SessionErr.parsePubKeyFailed
  | [], hne => absurd rfl hne
  | [h], _ => by simp [hintChainEdges, hparse]
  | h :: h2 :: t, _ => by
    have ih := hintChainEdges_err parsePubKey target hparse (h2 :: t)
      (List.cons_ne_nil h2 t)
    simp [hintChainEdges, ih]

theorem buildAdditionalEdges_err (parsePubKey : Vertex → Option PubKey)
    (target : Vertex) (hparse : parsePubKey target = none) :
    ∀ (hints : List (List HopHint)), (∃ c ∈ hints, c ≠ []) →
      buildAdditionalEdges parsePubKey target hints =
        Except.error SessionErr.parsePubKeyFailed := by
  intro hints
  induction hints with
  | nil =>
    rintro ⟨c, hc, _⟩
    cases hc
  | cons c cs ih =>
    rintro ⟨d, hd, hdne⟩
    rcases List.mem_cons.mp hd with rfl | hd'
    · have hc := hintChainEdges_err parsePubKey target hparse d hdne
      simp [buildAdditionalEdges, hc]
    · cases c with
      | nil =>
        have hrec := ih ⟨d, hd', hdne⟩
        simp [buildAdditionalEdges, hintChainEdges, hrec]
      | cons h t =>
        have hc := hintChainEdges_err parsePubKey target hparse (h :: t)
          (List.cons_ne_nil h t)
        simp [buildAdditionalEdges, hc]

/-- C9: when some hint chain is non-empty and the target vertex does not
parse as a public key, `NewPaymentSession` fails (with the parse failure)
instead of returning a session. -/
theorem C9_unparseable_target (parsePubKey : Vertex → Option PubKey)
    (sourceNode : Except SessionErr Unit) (routeHints : List (List HopHint))
    (target : Vertex) (hne : ∃ c ∈ routeHints, c ≠ [])
    (hparse : parsePubKey target = none) :
    NewPaymentSession parsePubKey sourceNode routeHints target =
      Except.error SessionErr.parsePubKeyFailed := by
  have hb := buildAdditionalEdges_err parsePubKey target hparse routeHints hne
  simp [NewPaymentSession, hb]

/-- Witness for C9: a one-hint chain against a parse function that rejects
every key. -/
theorem C9_unparseable_target_witness :
    (∃ c ∈ [[testHintA]], c ≠ []) ∧
    (fun (_ : Vertex) => (none : Option PubKey)) testTarget = none ∧
    NewPaymentSession (fun (_ : Vertex) => (none : Option PubKey))
        (Except.ok ()) [[testHintA]] testTarget =
      Except.error SessionErr.parsePubKeyFailed :=
  ⟨⟨[testHintA], List.mem_singleton.mpr rfl, by decide⟩, rfl,
   C9_unparseable_target (fun (_ : Vertex) => (none : Option PubKey))
     (Except.ok ()) [[testHintA]] testTarget
     ⟨[testHintA], List.mem_singleton.mpr rfl, by decide⟩ rfl⟩

/-! ## Invoice RPC conversion

Embedding of `src/lnrpc/invoicesrpc/utils.go`. Contract and HTLC states are
the channeldb integer constants; `zpay32.Decode` is an external collaborator
passed in as the `decode` parameter; string fields are carried as byte
lists. -/

/-- Contract state: invoice open. -/
def ContractOpen : Nat := 0

/-- Contract state: invoice settled. -/
def ContractSettled : Nat := 1

/-- Contract state: invoice canceled. -/
def ContractCanceled : Nat := 2

/-- Contract state: invoice accepted. -/
def ContractAccepted : Nat := 3

/-- HTLC state: accepted. -/
def HtlcStateAccepted : Nat := 0

/-- HTLC state: settled. -/
def HtlcStateSettled : Nat := 1

/-- HTLC state: canceled. -/
def HtlcStateCanceled : Nat := 2

/-- The all-zero preimage standing for an unknown preimage. -/
def UnknownPreimage : List Nat := List.replicate 32 0

/-- The contract terms of an invoice: preimage, value in milli-atoms,
contract state. -/
structure ContractTerm where
  paymentPreimage : List Nat
  value : Nat
  state : Nat
  deriving DecidableEq

/-- The key of an invoice HTLC: channel id and HTLC index. -/
structure CircuitKey where
  chanID : Nat
  htlcID : Nat
  deriving DecidableEq

/-- One HTLC of an invoice. -/
structure InvoiceHTLC where
  state : Nat
  acceptHeight : Nat
  acceptTime : Int
  resolveTime : Int
  expiry : Nat
  amt : Nat
  deriving DecidableEq

/-- A stored invoice, with the fields `CreateRPCInvoice` reads. -/
structure Invoice where
  memo : List Nat
  receipt : List Nat
  paymentRequest : List Nat
  creationDate : Int
  settleDateIsZero : Bool
  settleDateUnix : Int
  terms : ContractTerm
  amtPaid : Nat
  expirySeconds : Nat
  finalCltvDelta : Nat
  addIndex : Nat
  settleIndex : Nat
  htlcs : List (CircuitKey × InvoiceHTLC)
  deriving DecidableEq

/-- A decoded payment request, with the fields `CreateRPCInvoice` reads. -/
structure PayReq where
  paymentHash : List Nat
  descriptionHash : Option (List Nat)
  fallbackAddr : Option (List Nat)
  routeHints : List (List HopHint)
  deriving DecidableEq

/-- A hop hint in its RPC form; the node id is hex text. -/
structure RPCHopHint where
  nodeId : List Nat
  chanId : Nat
  feeBaseMAtoms : Nat
  feeProportionalMillionths : Nat
  cltvExpiryDelta : Nat
  deriving DecidableEq

/-- A route hint in its RPC form. -/
structure RPCRouteHint where
  hopHints : List RPCHopHint
  deriving DecidableEq

/-- RPC invoice states. -/
inductive InvoiceStateRPC where
  | stateOpen
  | stateSettled
  | stateCanceled
  | stateAccepted
  deriving DecidableEq

/-- RPC invoice-HTLC states. -/
inductive InvoiceHTLCStateRPC where
  | accepted
  | settled
  | canceled
  deriving DecidableEq

/-- One invoice HTLC in its RPC form. -/
structure RPCInvoiceHTLC where
  chanId : Nat
  htlcIndex : Nat
  acceptHeight : Nat
  acceptTime : Int
  resolveTime : Int
  expiryHeight : Nat
  amtMAtoms : Nat
  state : InvoiceHTLCStateRPC
  deriving DecidableEq

/-- The RPC invoice message. -/
structure RPCInvoice where
  memo : List Nat
  receipt : List Nat
  rHash : List Nat
  value : Nat
  creationDate : Int
  settleDate : Int
  settled : Bool
  paymentRequest : List Nat
  descriptionHash : List Nat
  expiry : Nat
  cltvExpiry : Nat
  fallbackAddr : List Nat
  routeHints : List RPCRouteHint
  addIndex : Nat
  Private : Bool
  settleIndex : Nat
  amtPaidAtoms : Nat
  amtPaidMAtoms : Nat
  amtPaid : Nat
  state : InvoiceStateRPC
  htlcs : List RPCInvoiceHTLC
  rPreimage : List Nat
  deriving DecidableEq

/-- Conversion failures of `CreateRPCInvoice`. -/
inductive RPCErr where
  | decodeFailed
  | unknownInvoiceState
  | unknownHtlcState
  deriving DecidableEq

/-- ASCII code of one hex digit. -/
def hexDigit (n : Nat) : Nat := if n < 10 then 48 + n else 87 + n

/-- Hex text of a byte list, two digits per byte. -/
def hexEncode : List Nat → List Nat
  | [] => []
  | b :: rest => hexDigit (b / 16) :: hexDigit (b % 16) :: hexEncode rest

/-- Convert decoded route hints into their RPC form, one converted hint per
chain, one converted hop per hop, in order. -/
def CreateRPCRouteHints (routeHints : List (List HopHint)) :
    List RPCRouteHint :=
  routeHints.map (fun chain =>
    ⟨chain.map (fun hop =>
      { nodeId := hexEncode hop.nodeID.bytes, chanId := hop.channelID,
        feeBaseMAtoms := hop.feeBaseMAtoms,
        feeProportionalMillionths := hop.feeProportionalMillionths,
        cltvExpiryDelta := hop.cltvExpiryDelta })⟩)

/-- The state switch on an invoice's contract state; unknown values are
rejected. -/
def convertInvoiceState (st : Nat) : Except RPCErr InvoiceStateRPC :=
  if st = ContractOpen then Except.ok InvoiceStateRPC.stateOpen
  else if st = ContractSettled then Except.ok InvoiceStateRPC.stateSettled
  else if st = ContractCanceled then Except.ok InvoiceStateRPC.stateCanceled
  else if st = ContractAccepted then Except.ok InvoiceStateRPC.stateAccepted
  else Except.error RPCErr.unknownInvoiceState

/-- The state switch on one HTLC's state; unknown values are rejected. -/
def convertHtlcState (st : Nat) : Except RPCErr InvoiceHTLCStateRPC :=
  if st = HtlcStateAccepted then Except.ok InvoiceHTLCStateRPC.accepted
  else if st = HtlcStateSettled then Except.ok InvoiceHTLCStateRPC.settled
  else if st = HtlcStateCanceled then Except.ok InvoiceHTLCStateRPC.canceled
  else Except.error RPCErr.unknownHtlcState

/-- The HTLC conversion loop of `CreateRPCInvoice`: each HTLC's state is
switched on, resolve time is reported only for resolved HTLCs, and the first
unknown state aborts the whole conversion. -/
def convertHtlcs :
    List (CircuitKey × InvoiceHTLC) → Except RPCErr (List RPCInvoiceHTLC)
  | [] => Except.ok []
  | (key, htlc) :: rest =>
    match convertHtlcState htlc.state with
    | Except.error e => Except.error e
    | Except.ok st =>
      let rpcHtlc : RPCInvoiceHTLC :=
        { chanId := key.chanID, htlcIndex := key.htlcID,
          acceptHeight := htlc.acceptHeight, acceptTime := htlc.acceptTime,
          resolveTime :=
            if htlc.state ≠ HtlcStateAccepted then htlc.resolveTime else 0,
          expiryHeight := htlc.expiry, amtMAtoms := htlc.amt, state := st }
      match convertHtlcs rest with
      | Except.error e => Except.error e
      | Except.ok hs => Except.ok (rpcHtlc :: hs)

/-- Build the RPC invoice from a stored invoice: decode the payment request,
convert route hints, switch on the contract state, convert each HTLC, and
assemble the message; `Private` is set exactly when route hints are
present, and the preimage is reported only when known. -/
def CreateRPCInvoice (decode : List Nat → Option PayReq)
    (invoice : Invoice) : Except RPCErr RPCInvoice :=
  match decode invoice.paymentRequest with
  | none => Except.error RPCErr.decodeFailed
  | some decoded =>
    let descHash : List Nat :=
      match decoded.descriptionHash with
      | none => []
      | some h => h
    let fallback : List Nat :=
      match decoded.fallbackAddr with
      | none => []
      | some a => a
    let settleDate : Int :=
      if invoice.settleDateIsZero then 0 else invoice.settleDateUnix
    let routeHints := CreateRPCRouteHints decoded.routeHints
    let atomsAmt := invoice.terms.value / 1000
    let atomsAmtPaid := invoice.amtPaid / 1000
    let isSettled := decide (invoice.terms.state = ContractSettled)
    match convertInvoiceState invoice.terms.state with
    | Except.error e => Except.error e
    | Except.ok state =>
      match convertHtlcs invoice.htlcs with
      | Except.error e => Except.error e
      | Except.ok rpcHtlcs =>
        Except.ok
          { memo := invoice.memo, receipt := invoice.receipt,
            rHash := decoded.paymentHash, value := atomsAmt,
            creationDate := invoice.creationDate, settleDate := settleDate,
            settled := isSettled, paymentRequest := invoice.paymentRequest,
            descriptionHash := descHash, expiry := invoice.expirySeconds,
            cltvExpiry := invoice.finalCltvDelta, fallbackAddr := fallback,
            routeHints := routeHints, addIndex := invoice.addIndex,
            Private := decide (routeHints.length > 0),
            settleIndex := invoice.settleIndex,
            amtPaidAtoms := atomsAmtPaid, amtPaidMAtoms := invoice.amtPaid,
            amtPaid := invoice.amtPaid, state := state, htlcs := rpcHtlcs,
            rPreimage :=
              if invoice.terms.paymentPreimage ≠ UnknownPreimage then
                invoice.terms.paymentPreimage
              else [] }

theorem convertInvoiceState_err (st : Nat) (h1 : st ≠ ContractOpen)
    (h2 : st ≠ ContractSettled) (h3 : st ≠ ContractCanceled)
    (h4 : st ≠ ContractAccepted) :
    convertInvoiceState st = Except.error RPCErr.unknownInvoiceState := by
  simp [convertInvoiceState, h1, h2, h3, h4]

theorem convertHtlcState_err (st : Nat) (h1 : st ≠ HtlcStateAccepted)
    (h2 : st ≠ HtlcStateSettled) (h3 : st ≠ HtlcStateCanceled) :
    convertHtlcState st = Except.error RPCErr.unknownHtlcState := by
  simp [convertHtlcState, h1, h2, h3]

theorem convertHtlcs_err (l : List (CircuitKey × InvoiceHTLC)) :
    (∃ e ∈ l, e.2.state ≠ HtlcStateAccepted ∧ e.2.state ≠ HtlcStateSettled ∧
      e.2.state ≠ HtlcStateCanceled) →
    convertHtlcs l = Except.error RPCErr.unknownHtlcState := by
  induction l with
  | nil =>
    rintro ⟨e, he, _⟩
    simp at he
  | cons p rest ih =>
    rintro ⟨e, he, hbad⟩
    obtain ⟨key, htlc⟩ := p
    rcases List.mem_cons.mp he with rfl | he'
    · obtain ⟨h1, h2, h3⟩ := hbad
      simp only [convertHtlcs, convertHtlcState_err _ h1 h2 h3]
    · have hrec := ih ⟨e, he', hbad⟩
      by_cases h0 : htlc.state = HtlcStateAccepted
      · simp [convertHtlcs, convertHtlcState, HtlcStateAccepted, h0, hrec]
      · by_cases hs : htlc.state = HtlcStateSettled
        · simp [convertHtlcs, convertHtlcState, HtlcStateAccepted,
            HtlcStateSettled, hs, hrec]
        · by_cases hc : htlc.state = HtlcStateCanceled
          · simp [convertHtlcs, convertHtlcState, HtlcStateAccepted,
              HtlcStateSettled, HtlcStateCanceled, h0, hs, hc, hrec]
          · simp only [convertHtlcs, convertHtlcState_err _ h0 hs hc]

/-- C8: an invoice whose contract state is not one of the four recognized
contract states, or that carries an HTLC whose state is not one of the three
recognized HTLC states, makes `CreateRPCInvoice` return an error and no
invoice message. -/
theorem C8_invalid_state_rejected (decode : List Nat → Option PayReq)
    (invoice : Invoice)
    (h : (invoice.terms.state ≠ ContractOpen ∧
          invoice.terms.state ≠ ContractSettled ∧
          invoice.terms.state ≠ ContractCanceled ∧
          invoice.terms.state ≠ ContractAccepted) ∨
         (∃ e ∈ invoice.htlcs, e.2.state ≠ HtlcStateAccepted ∧
           e.2.state ≠ HtlcStateSettled ∧ e.2.state ≠ HtlcStateCanceled)) :
    ∃ err, CreateRPCInvoice decode invoice = Except.error err := by
  unfold CreateRPCInvoice
  cases hdec : decode invoice.paymentRequest with
  | none => exact ⟨RPCErr.decodeFailed, rfl⟩
  | some decoded =>
    rcases h with hstate | hhtlc
    · obtain ⟨h1, h2, h3, h4⟩ := hstate
      have hc := convertInvoiceState_err invoice.terms.state h1 h2 h3 h4
      exact ⟨RPCErr.unknownInvoiceState, by simp [hc]⟩
    · have hh := convertHtlcs_err invoice.htlcs hhtlc
      cases hcs : convertInvoiceState invoice.terms.state with
      | error e => exact ⟨e, by simp [hcs]⟩
      | ok st => exact ⟨RPCErr.unknownHtlcState, by simp [hcs, hh]⟩

/-- A concrete decoded payment request with one single-hint route hint. -/
def testPayReq : PayReq :=
  { paymentHash := List.replicate 32 8, descriptionHash := none,
    fallbackAddr := none, routeHints := [[testHintA]] }

/-- A concrete invoice with an unrecognized contract state. -/
def testBadInvoice : Invoice :=
  { memo := [], receipt := [], paymentRequest := [], creationDate := 0,
    settleDateIsZero := true, settleDateUnix := 0,
    terms := ⟨List.replicate 32 0, 0, 7⟩, amtPaid := 0, expirySeconds := 0,
    finalCltvDelta := 0, addIndex := 0, settleIndex := 0, htlcs := [] }

/-- Witness for C8 at contract state 7. -/
theorem C8_invalid_state_rejected_witness :
    ((testBadInvoice.terms.state ≠ ContractOpen ∧
      testBadInvoice.terms.state ≠ ContractSettled ∧
      testBadInvoice.terms.state ≠ ContractCanceled ∧
      testBadInvoice.terms.state ≠ ContractAccepted) ∨
     (∃ e ∈ testBadInvoice.htlcs, e.2.state ≠ HtlcStateAccepted ∧
       e.2.state ≠ HtlcStateSettled ∧ e.2.state ≠ HtlcStateCanceled)) ∧
    ∃ err, CreateRPCInvoice (fun _ => some testPayReq) testBadInvoice =
      Except.error err :=
  ⟨Or.inl (by decide),
   C8_invalid_state_rejected (fun _ => some testPayReq) testBadInvoice
     (Or.inl (by decide))⟩

theorem CreateRPCInvoice_ok_fields (decode : List Nat → Option PayReq)
    (invoice : Invoice) (decoded : PayReq) (rpc : RPCInvoice)
    (hdec : decode invoice.paymentRequest = some decoded)
    (hok : CreateRPCInvoice decode invoice = Except.ok rpc) :
    rpc.routeHints = CreateRPCRouteHints decoded.routeHints ∧
    rpc.Private = decide ((CreateRPCRouteHints decoded.routeHints).length > 0) := by
  unfold CreateRPCInvoice at hok
  rw [hdec] at hok
  cases hcs : convertInvoiceState invoice.terms.state with
  | error e => rw [hcs] at hok; simp at hok
  | ok st =>
    rw [hcs] at hok
    cases hch : convertHtlcs invoice.htlcs with
    | error e => rw [hch] at hok; simp at hok
    | ok hs =>
      rw [hch] at hok
      simp only [Except.ok.injEq] at hok
      rw [← hok]
      exact ⟨rfl, rfl⟩

/-- C10: for every invoice accepted by `CreateRPCInvoice`, the message's
`Private` flag is set exactly when the decoded payment request carries at
least one route hint, and the `routeHints` field holds exactly one converted
hint per decoded hint, in order, with each hop's node id (hex text of the
compressed key), channel id, fees and time-lock delta preserved. -/
theorem C10_route_hints_conversion (decode : List Nat → Option PayReq)
    (invoice : Invoice) (decoded : PayReq) (rpc : RPCInvoice)
    (hdec : decode invoice.paymentRequest = some decoded)
    (hok : CreateRPCInvoice decode invoice = Except.ok rpc) :
    (rpc.Private = true ↔ decoded.routeHints ≠ []) ∧
    rpc.routeHints.length = decoded.routeHints.length ∧
    ∀ (i : Nat) (hi : i < rpc.routeHints.length)
      (hi' : i < decoded.routeHints.length),
      (rpc.routeHints.get ⟨i, hi⟩).hopHints.length =
        (decoded.routeHints.get ⟨i, hi'⟩).length ∧
      ∀ (j : Nat) (hj : j < (rpc.routeHints.get ⟨i, hi⟩).hopHints.length)
        (hj' : j < (decoded.routeHints.get ⟨i, hi'⟩).length),
        ((rpc.routeHints.get ⟨i, hi⟩).hopHints.get ⟨j, hj⟩).nodeId =
          hexEncode
            ((decoded.routeHints.get ⟨i, hi'⟩).get ⟨j, hj'⟩).nodeID.bytes ∧
        ((rpc.routeHints.get ⟨i, hi⟩).hopHints.get ⟨j, hj⟩).chanId =
          ((decoded.routeHints.get ⟨i, hi'⟩).get ⟨j, hj'⟩).channelID ∧
        ((rpc.routeHints.get ⟨i, hi⟩).hopHints.get ⟨j, hj⟩).feeBaseMAtoms =
          ((decoded.routeHints.get ⟨i, hi'⟩).get ⟨j, hj'⟩).feeBaseMAtoms ∧
        ((rpc.routeHints.get ⟨i, hi⟩).hopHints.get
            ⟨j, hj⟩).feeProportionalMillionths =
          ((decoded.routeHints.get ⟨i, hi'⟩).get
            ⟨j, hj'⟩).feeProportionalMillionths ∧
        ((rpc.routeHints.get ⟨i, hi⟩).hopHints.get ⟨j, hj⟩).cltvExpiryDelta =
          ((decoded.routeHints.get ⟨i, hi'⟩).get ⟨j, hj'⟩).cltvExpiryDelta := by
  obtain ⟨hrh, hpriv⟩ :=
    CreateRPCInvoice_ok_fields decode invoice decoded rpc hdec hok
  refine ⟨?_, ?_, ?_⟩
  · rw [hpriv]
    simp [CreateRPCRouteHints, List.length_pos]
  · rw [hrh]
    simp [CreateRPCRouteHints]
  · intro i hi hi'
    have hgi := List.get_of_eq hrh ⟨i, hi⟩
    rw [hgi]
    simp [CreateRPCRouteHints, List.get_eq_getElem, List.getElem_map]

/-- A concrete well-formed settled invoice with no HTLCs. -/
def testInvoice : Invoice :=
  { memo := [], receipt := [], paymentRequest := [1], creationDate := 5,
    settleDateIsZero := false, settleDateUnix := 6,
    terms := ⟨List.replicate 32 1, 2000, ContractSettled⟩, amtPaid := 3000,
    expirySeconds := 60, finalCltvDelta := 9, addIndex := 4, settleIndex := 2,
    htlcs := [] }

/-- The RPC message `CreateRPCInvoice` produces for `testInvoice` decoded as
`testPayReq`. -/
def testRPCInvoice : RPCInvoice :=
  { memo := [], receipt := [], rHash := List.replicate 32 8, value := 2,
    creationDate := 5, settleDate := 6, settled := true,
    paymentRequest := [1], descriptionHash := [], expiry := 60,
    cltvExpiry := 9, fallbackAddr := [],
    routeHints := CreateRPCRouteHints [[testHintA]], addIndex := 4,
    Private := true, settleIndex := 2, amtPaidAtoms := 3,
    amtPaidMAtoms := 3000, amtPaid := 3000,
    state := InvoiceStateRPC.stateSettled, htlcs := [],
    rPreimage := List.replicate 32 1 }

/-- Witness for C10 at the concrete invoice. -/
theorem C10_route_hints_conversion_witness :
    (fun (_ : List Nat) => some testPayReq) testInvoice.paymentRequest =
      some testPayReq ∧
    CreateRPCInvoice (fun _ => some testPayReq) testInvoice =
      Except.ok testRPCInvoice ∧
    (testRPCInvoice.Private = true ↔ testPayReq.routeHints ≠ []) ∧
    testRPCInvoice.routeHints.length = testPayReq.routeHints.length :=
  ⟨rfl, rfl,
   (C10_route_hints_conversion (fun _ => some testPayReq) testInvoice
     testPayReq testRPCInvoice rfl rfl).1,
   (C10_route_hints_conversion (fun _ => some testPayReq) testInvoice
     testPayReq testRPCInvoice rfl rfl).2.1⟩

end Dcrlnd
